import Mathlib

/-!
Verification of the IronShield CLI solve orchestrator.

This file gives a shallow embedding, in Lean 4, of the solve orchestrator of
the IronShield CLI (`src/solve.rs`, `src/client.rs`, `src/commands/solve.rs`)
and proves the specified properties about it.

Modelling conventions:
* Rust `u64`/`usize` values are modelled as `Nat`; `i64` timestamps as `Int`.
  Where wrap-around of machine arithmetic matters (the `u64` subtraction in
  the progress throttler) it is modelled explicitly with `% 2^64`.
* The external solver and verifier (crate `ironshield-core`) are parameters:
  a worker's outcome is passed in as data, and the verification predicate is
  an arbitrary function argument.
* The multithreaded race (`future::select_all` loop) is modelled by consuming
  the workers' completions one at a time, in completion order, as a list.
* Side effects that the claims talk about (spawning a worker, calling the
  verifier, emitting a progress line) are made explicit in return values.
-/

namespace IronShield

/-- The challenge wire type (`ironshield_types::IronShieldChallenge`).
Only the fields the orchestrator reads are modelled:
`expiration_time` is an `i64` epoch-milliseconds timestamp and
`recommended_attempts` a `u64` hint. -/
structure IronShieldChallenge where
  website_id : String
  recommended_attempts : Nat
  expiration_time : Int
  deriving Repr, DecidableEq

/-- The solution wire type (`ironshield_types::IronShieldChallengeResponse`).
Only the `solution: i64` field (the winning nonce) is read by the
orchestrator's telemetry. -/
structure IronShieldChallengeResponse where
  solution : Int
  deriving Repr, DecidableEq

/-- Client configuration (`ClientConfig`), fields as used by
`SolveConfig::new` and the tests in `src/solve.rs`:
`num_threads: Option<usize>` is the configured thread-count override. -/
structure ClientConfig where
  endpoint : String
  api_base_url : String
  timeoutSecs : Nat
  verbose : Bool
  num_threads : Option Nat
  deriving Repr, DecidableEq

/-- The error outcomes of the solve orchestrator, one constructor per
distinct error site in `src/solve.rs` / `src/client.rs`
(spec §7 taxonomy):
* `challengeExpired`: `challenge_solving_error("Challenge has already expired")`;
* `taskExecutionFailed`: a `spawn_blocking` join error
  (`"Task execution failed: …"` / `"… solve task failed: …"`);
* `solverError`: the external solver returned `Err`
  (a worker failure, `"Thread {i} failed: …"`);
* `verificationFailed`:
  `challenge_solving_error("Solution verification failed - this should never happen")`;
* `noSolutionFound`: `ProcessingError("No solution found by any thread")`. -/
inductive SolveError where
  | challengeExpired
  | taskExecutionFailed (msg : String)
  | solverError (msg : String)
  | verificationFailed
  | noSolutionFound
  deriving Repr, DecidableEq

/-- Structure `SolveConfig` (`src/solve.rs` lines 16–22). -/
structure SolveConfig where
  thread_count : Nat
  use_multithreaded : Bool
  deriving Repr, DecidableEq

/-- Function `SolveConfig::new` (`src/solve.rs` lines 26–41).  `available_cores` is the
ambient `num_cpus::get()` value, passed explicitly.  The Rust body is

    let thread_count = if use_multithreaded {
        config.num_threads
            .unwrap_or_else(|| std::cmp::max(1, (available_cores * 4) / 5))
    } else { 1 };
-/
def SolveConfig.new (config : ClientConfig) (use_multithreaded : Bool)
    (available_cores : Nat) : SolveConfig :=
  { thread_count :=
      if use_multithreaded then
        config.num_threads.getD (max 1 (available_cores * 4 / 5))
      else
        1
    use_multithreaded := use_multithreaded }

/-! ### Telemetry (`solve_challenge` Ok-branch, `src/solve.rs` lines 66–99,
and `log_solution_performance`, `src/commands/solve.rs` lines 156–192). -/

/-- The estimate `estimated_attempts_per_thread = (solution_nonce / thread_count) + 1`
(`src/solve.rs` line 74). `u64` division is `Nat` floor division. -/
def estimated_attempts_per_thread (solution_nonce thread_count : Nat) : Nat :=
  solution_nonce / thread_count + 1

/-- The estimate `estimated_total_attempts = estimated_attempts_per_thread * thread_count`
(`src/solve.rs` line 75). -/
def estimated_total_attempts (solution_nonce thread_count : Nat) : Nat :=
  estimated_attempts_per_thread solution_nonce thread_count * thread_count

/-- The hash-rate computation (`src/solve.rs` lines 77–81):
`if elapsed_millis > 0 { total * 1000 / elapsed_millis } else { total }`. -/
def telemetry_hash_rate (total_attempts elapsed_millis : Nat) : Nat :=
  if elapsed_millis > 0 then
    total_attempts * 1000 / elapsed_millis
  else
    total_attempts

/-! ### The multithreaded race (`solve_multithreaded`, `src/solve.rs`
lines 118–241). -/

/-- One completed `JoinHandle` of the `future::select_all` loop
(`src/solve.rs` lines 207–236):
* `sol s` is `Ok(Ok(found_solution))`;
* `fail msg` is `Ok(Err(e))`, a worker failure
  (`"Thread {i} failed: …"`);
* `joinErr msg` is `Err(e)`, a tokio join error. -/
inductive WorkerCompletion where
  | sol (s : IronShieldChallengeResponse)
  | fail (msg : String)
  | joinErr (msg : String)
  deriving Repr, DecidableEq

/-- Whether a completion carries a solution. -/
def WorkerCompletion.isSol : WorkerCompletion → Bool
  | .sol _ => true
  | .fail _ => false
  | .joinErr _ => false

/-- The coordinator loop of `solve_multithreaded` (`src/solve.rs`
lines 204–240), consuming the handles' completions in completion order:
`Ok(Ok(s))` breaks the loop and returns `s`; `Ok(Err(_))` and `Err(_)` both
drop that handle and continue on the remaining ones; an empty remainder
yields `ProcessingError("No solution found by any thread")`
(`solution.ok_or_else`). -/
def race_loop : List WorkerCompletion →
    Except SolveError IronShieldChallengeResponse
  | [] => .error .noSolutionFound
  | .sol s :: _ => .ok s
  | .fail _ :: rest => race_loop rest
  | .joinErr _ :: rest => race_loop rest

/-- The history of the shared `solution_found` flag (`src/solve.rs`
lines 129, 214): its value after the coordinator processes each completion.
The flag starts `false`; when a completion is `Ok(Ok(_))` the coordinator
stores `true` and breaks, so the history ends there; failures and join
errors leave the flag `false`. -/
def race_flag_history : List WorkerCompletion → List Bool
  | [] => []
  | .sol _ :: _ => [true]
  | .fail _ :: rest => false :: race_flag_history rest
  | .joinErr _ :: rest => false :: race_flag_history rest

/-- One invocation of a worker's progress callback (`src/solve.rs`
lines 157–185).  Inputs: the current value of the shared `solution_found`
flag, the worker's cumulative-attempts counter, the batch size delivered by
the external solver, and the worker's elapsed milliseconds.  Returns the new
counter value and, unless suppressed, the `(total_attempts, hash_rate)` pair
the callback reports.  The Rust body returns early when the flag is set;
otherwise `total_attempts = cumulative.fetch_add(batch) + batch` and
`hash_rate = if elapsed > 0 { total * 1000 / elapsed } else { total }`. -/
def progress_callback (solution_found : Bool) (cumulative_attempts : Nat)
    (batch_attempts : Nat) (elapsed_millis : Nat) : Nat × Option (Nat × Nat) :=
  if solution_found then
    (cumulative_attempts, none)
  else
    let total_attempts := cumulative_attempts + batch_attempts
    (total_attempts,
      some (total_attempts, telemetry_hash_rate total_attempts elapsed_millis))

/-- A run of a worker's progress callback over a sequence of batch sizes,
threading the cumulative-attempts counter, while the shared flag stays
unset.  Returns the final counter and the list of reports emitted. -/
def run_progress_callbacks (cumulative_attempts elapsed_millis : Nat) :
    List Nat → Nat × List (Nat × Nat)
  | [] => (cumulative_attempts, [])
  | batch :: batches =>
    match progress_callback false cumulative_attempts batch elapsed_millis with
    | (counter, report) =>
      match run_progress_callbacks counter elapsed_millis batches with
      | (final, reports) => (final, report.toList ++ reports)

/-- The running prefix sums of a list of batch sizes, starting from `acc`. -/
def prefix_sums (acc : Nat) : List Nat → List Nat
  | [] => []
  | b :: bs => (acc + b) :: prefix_sums (acc + b) bs

/-- The `(offset, stride)` pairs of the workers spawned by
`solve_multithreaded` (`src/solve.rs` lines 132–135):
`thread_offset = thread_id`, `thread_stride = thread_count`, for
`thread_id in 0..thread_count`. -/
def spawned_workers (thread_count : Nat) : List (Nat × Nat) :=
  (List.range thread_count).map (fun thread_id => (thread_id, thread_count))

/-- Membership in the arithmetic progression `{i, i+S, i+2S, …}` searched by
the worker with offset `i` and stride `S`. -/
def inProgression (i S n : Nat) : Prop :=
  ∃ k, n = i + k * S

/-! ### Strategy dispatch (`solve_challenge`, `src/solve.rs` lines 45–63,
and `solve_single_threaded`, lines 244–272). -/

/-- Which solving path `solve_challenge` takes. -/
inductive SolvePath where
  | single
  | multi
  deriving Repr, DecidableEq

/-- The strategy dispatch of `solve_challenge` (`src/solve.rs` lines 59–63):

    if solve_config.use_multithreaded && solve_config.thread_count > 1 {
        solve_multithreaded(…)
    } else {
        solve_single_threaded(…)
    }
-/
def solve_challenge_path (solve_config : SolveConfig) : SolvePath :=
  if solve_config.use_multithreaded && decide (solve_config.thread_count > 1) then
    .multi
  else
    .single

/-- The `(offset, stride)` pairs of the workers each path spawns: the
multithreaded path spawns `thread_count` partitioned blocking workers
(`src/solve.rs` lines 132–135); the single-threaded path spawns exactly one
blocking worker (`src/solve.rs` lines 251–254) that calls
`find_solution_single_threaded(&challenge)`, the unpartitioned search over
the full space with the external solver's defaults `offset = 0`,
`stride = 1` (spec §4.3, §6). -/
def solve_challenge_workers (solve_config : SolveConfig) : List (Nat × Nat) :=
  match solve_challenge_path solve_config with
  | .single => [(0, 1)]
  | .multi => spawned_workers solve_config.thread_count

/-! ### `IronShieldClient::solve_challenge` (`src/client.rs` lines 174–291):
expiry guard, solver invocation, verification gate. -/

/-- The observable trace of one `IronShieldClient::solve_challenge` call:
the returned result, whether a blocking worker task was spawned, and how
many times `verify_ironshield_solution` was called. -/
structure ClientSolveTrace where
  result : Except SolveError IronShieldChallengeResponse
  worker_spawned : Bool
  verify_calls : Nat
  deriving Repr

/-- Method `IronShieldClient::solve_challenge` (`src/client.rs` lines 202–291),
with the ambient inputs made explicit: `current_time` is
`chrono::Utc::now().timestamp_millis()`; `solver_join` is the joined
outcome of the `spawn_blocking` worker running the external solver
(`Err e` a join error, `Ok (Err e)` a solver failure, `Ok (Ok r)` a
solution); `verify` is `verify_ironshield_solution`.  The Rust body:
1. if `current_time > challenge.expiration_time`, return
   `challenge_solving_error("Challenge has already expired")` before
   spawning anything;
2. spawn the blocking solver task and join it, mapping a join error to
   `"Task execution failed: …"` and a solver error through
   `challenge_solving_error`;
3. call `verify_ironshield_solution(&response)` once; if it returns false,
   return `challenge_solving_error("Solution verification failed - this
   should never happen")`, else `Ok(response)`. -/
def IronShieldClient.solve_challenge (current_time : Int)
    (challenge : IronShieldChallenge)
    (solver_join : Except String (Except String IronShieldChallengeResponse))
    (verify : IronShieldChallengeResponse → Bool) : ClientSolveTrace :=
  if current_time > challenge.expiration_time then
    { result := .error .challengeExpired, worker_spawned := false
      verify_calls := 0 }
  else
    match solver_join with
    | .error e =>
      { result := .error (.taskExecutionFailed e), worker_spawned := true
        verify_calls := 0 }
    | .ok (.error e) =>
      { result := .error (.solverError e), worker_spawned := true
        verify_calls := 0 }
    | .ok (.ok response) =>
      if verify response then
        { result := .ok response, worker_spawned := true, verify_calls := 1 }
      else
        { result := .error .verificationFailed, worker_spawned := true
          verify_calls := 1 }

/-! ### Progress-log throttling (`VerboseProgressTracker::on_progress`,
`src/commands/solve.rs` lines 30–48). -/

/-- Rust `u64` wrapping subtraction `a - b` on `Nat`, i.e.
`(a - b) mod 2^64` for `a, b < 2^64`. -/
def u64_sub (a b : Nat) : Nat :=
  (a + (2 ^ 64 - b % 2 ^ 64)) % 2 ^ 64

/-- Method `VerboseProgressTracker::on_progress` (`src/commands/solve.rs`
lines 31–47).  The `last_logged` `HashMap<usize, u64>` behind the mutex is
modelled as a function `Nat → Option Nat`.  Returns whether a progress line
was emitted and the updated map.  The Rust body:

    let last_logged_attempts = last_logged_map.get(&thread_id).copied().unwrap_or(0);
    if total_attempts - last_logged_attempts >= 500_000 {
        println!(…);
        last_logged_map.insert(thread_id, total_attempts);
    }
-/
def VerboseProgressTracker.on_progress (last_logged : Nat → Option Nat)
    (thread_id : Nat) (total_attempts : Nat) : Bool × (Nat → Option Nat) :=
  let last_logged_attempts := (last_logged thread_id).getD 0
  if 500000 ≤ u64_sub total_attempts last_logged_attempts then
    (true, fun t => if t = thread_id then some total_attempts else last_logged t)
  else
    (false, last_logged)

end IronShield

namespace IronShield

/-- Claim C5 (ThreadPolicy, `SolveConfig::new`): with a positive configured
override and positive available parallelism, `SolveConfig::new` returns
`thread_count = 1` when `use_multithreaded` is false; the override `k` when
multithreaded and the override is `Some k`; and
`max 1 (available_cores * 4 / 5)` when multithreaded with no override; and
the result is always ≥ 1. -/
theorem solveConfig_new_thread_policy (config : ClientConfig)
    (use_multithreaded : Bool) (available_cores : Nat)
    (hcores : 1 ≤ available_cores)
    (hover : ∀ k, config.num_threads = some k → 1 ≤ k) :
    (use_multithreaded = false →
      (SolveConfig.new config use_multithreaded available_cores).thread_count = 1)
    ∧ (∀ k, use_multithreaded = true → config.num_threads = some k →
      (SolveConfig.new config use_multithreaded available_cores).thread_count = k)
    ∧ (use_multithreaded = true → config.num_threads = none →
      (SolveConfig.new config use_multithreaded available_cores).thread_count
        = max 1 (available_cores * 4 / 5))
    ∧ 1 ≤ (SolveConfig.new config use_multithreaded available_cores).thread_count := by
  refine ⟨?_, ?_, ?_, ?_⟩
  · intro h; simp [SolveConfig.new, h]
  · intro k h hk; simp [SolveConfig.new, h, hk]
  · intro h hk; simp [SolveConfig.new, h, hk]
  · cases use_multithreaded with
    | false => simp [SolveConfig.new]
    | true =>
      cases hk : config.num_threads with
      | none => simp [SolveConfig.new, hk]
      | some k => simpa [SolveConfig.new, hk] using hover k hk

/-- Witness for `solveConfig_new_thread_policy` at a concrete configuration. -/
theorem solveConfig_new_thread_policy_witness :
    (1 ≤ 8 ∧ (∀ k, (some 4 : Option Nat) = some k → 1 ≤ k))
    ∧ ((true = false →
        (SolveConfig.new ⟨"e", "a", 30, false, some 4⟩ true 8).thread_count = 1)
      ∧ (∀ k, true = true → (some 4 : Option Nat) = some k →
        (SolveConfig.new ⟨"e", "a", 30, false, some 4⟩ true 8).thread_count = k)
      ∧ (true = true → (some 4 : Option Nat) = none →
        (SolveConfig.new ⟨"e", "a", 30, false, some 4⟩ true 8).thread_count
          = max 1 (8 * 4 / 5))
      ∧ 1 ≤ (SolveConfig.new ⟨"e", "a", 30, false, some 4⟩ true 8).thread_count) := by
  refine ⟨⟨by decide, ?_⟩, ?_⟩
  · intro k hk; cases hk; decide
  · exact solveConfig_new_thread_policy ⟨"e", "a", 30, false, some 4⟩ true 8
      (by decide) (by intro k hk; cases hk; decide)

/-- Claim C6 (Telemetry estimate): for winning nonce `n`, stride
`S = thread_count ≥ 1` and elapsed milliseconds `e`, the estimated total
attempts is `(n / S + 1) * S` with floor division, the hash rate is
`total * 1000 / e` when `e > 0` and `total` when `e = 0`; in particular at
`S = 4`, `n = 1000` the estimate is `1004` and at `e = 1000` the rate is
`1004`. -/
theorem telemetry_estimate (n S e : Nat) (hS : 1 ≤ S) :
    estimated_total_attempts n S = (n / S + 1) * S
    ∧ (0 < e →
        telemetry_hash_rate (estimated_total_attempts n S) e
          = estimated_total_attempts n S * 1000 / e)
    ∧ telemetry_hash_rate (estimated_total_attempts n S) 0
        = estimated_total_attempts n S
    ∧ estimated_total_attempts 1000 4 = 1004
    ∧ telemetry_hash_rate (estimated_total_attempts 1000 4) 1000 = 1004 := by
  refine ⟨rfl, ?_, ?_, by decide, by decide⟩
  · intro he; simp [telemetry_hash_rate, he]
  · simp [telemetry_hash_rate]

/-- Witness for `telemetry_estimate` at `n = 1000`, `S = 4`, `e = 1000`. -/
theorem telemetry_estimate_witness :
    (1 ≤ 4)
    ∧ (estimated_total_attempts 1000 4 = (1000 / 4 + 1) * 4
      ∧ (0 < 1000 →
          telemetry_hash_rate (estimated_total_attempts 1000 4) 1000
            = estimated_total_attempts 1000 4 * 1000 / 1000)
      ∧ telemetry_hash_rate (estimated_total_attempts 1000 4) 0
          = estimated_total_attempts 1000 4
      ∧ estimated_total_attempts 1000 4 = 1004
      ∧ telemetry_hash_rate (estimated_total_attempts 1000 4) 1000 = 1004) :=
  ⟨by decide, telemetry_estimate 1000 4 1000 (by decide)⟩

/-- The race loop returns the first `Solution` completion, independently of
anything after it. -/
lemma race_loop_first_sol (pre : List WorkerCompletion)
    (s : IronShieldChallengeResponse) (post : List WorkerCompletion)
    (hpre : ∀ c ∈ pre, c.isSol = false) :
    race_loop (pre ++ .sol s :: post) = .ok s := by
  induction pre with
  | nil => rfl
  | cons c rest ih =>
    have hc := hpre c (List.mem_cons_self c rest)
    have hrest : ∀ c ∈ rest, c.isSol = false :=
      fun c hmem => hpre c (List.mem_cons_of_mem _ hmem)
    cases c with
    | sol s' => simp [WorkerCompletion.isSol] at hc
    | fail msg => simpa [race_loop] using ih hrest
    | joinErr msg => simpa [race_loop] using ih hrest

/-- The race loop fails exactly when no completion is a `Solution`. -/
lemma race_loop_noSolution_iff (cs : List WorkerCompletion) :
    race_loop cs = .error .noSolutionFound ↔ ∀ c ∈ cs, c.isSol = false := by
  induction cs with
  | nil => simp [race_loop]
  | cons c rest ih =>
    cases c with
    | sol s => simp [race_loop, WorkerCompletion.isSol]
    | fail msg => simpa [race_loop, WorkerCompletion.isSol] using ih
    | joinErr msg => simpa [race_loop, WorkerCompletion.isSol] using ih

/-- Claim C1 (Race coordinator, first success wins): for every completion
sequence, the coordinator returns the solution of the first `Solution`
completion, for any suffix of further completions (it does not wait on
them); a `Failure` or join-error completion removes only that handle and the
loop continues on the rest; and the result is `NoSolutionFound` iff every
handle completes without a `Solution`. -/
theorem race_coordinator_first_success (cs : List WorkerCompletion) :
    (∀ pre s post, cs = pre ++ .sol s :: post →
      (∀ c ∈ pre, c.isSol = false) → race_loop cs = .ok s)
    ∧ (∀ msg rest, race_loop (.fail msg :: rest) = race_loop rest)
    ∧ (∀ msg rest, race_loop (.joinErr msg :: rest) = race_loop rest)
    ∧ (race_loop cs = .error .noSolutionFound ↔ ∀ c ∈ cs, c.isSol = false) := by
  refine ⟨?_, fun _ _ => rfl, fun _ _ => rfl, race_loop_noSolution_iff cs⟩
  intro pre s post hcs hpre
  rw [hcs]
  exact race_loop_first_sol pre s post hpre

/-- Witness for `race_coordinator_first_success`: one failure and one join
error are survived, and the first solution (nonce 42) wins over a later
one (nonce 7). -/
theorem race_coordinator_first_success_witness :
    ((WorkerCompletion.fail "boom" :: .joinErr "join" :: .sol ⟨42⟩ :: [.sol ⟨7⟩]
        = [WorkerCompletion.fail "boom", .joinErr "join"]
            ++ .sol ⟨42⟩ :: [.sol ⟨7⟩])
      ∧ (∀ c ∈ [WorkerCompletion.fail "boom", .joinErr "join"], c.isSol = false))
    ∧ race_loop
        (WorkerCompletion.fail "boom" :: .joinErr "join" :: .sol ⟨42⟩ :: [.sol ⟨7⟩])
        = .ok ⟨42⟩ := by
  refine ⟨⟨rfl, by decide⟩, ?_⟩
  exact (race_coordinator_first_success
      (.fail "boom" :: .joinErr "join" :: .sol ⟨42⟩ :: [.sol ⟨7⟩])).1
    [.fail "boom", .joinErr "join"] ⟨42⟩ [.sol ⟨7⟩] rfl (by decide)

/-- If no completion is a solution, the flag history is all-`false`. -/
lemma race_flag_history_all_false (cs : List WorkerCompletion)
    (h : ∀ c ∈ cs, c.isSol = false) :
    race_flag_history cs = List.replicate cs.length false := by
  induction cs with
  | nil => rfl
  | cons c rest ih =>
    have hc := h c (List.mem_cons_self c rest)
    have hrest : ∀ c ∈ rest, c.isSol = false :=
      fun c hmem => h c (List.mem_cons_of_mem _ hmem)
    cases c with
    | sol s => simp [WorkerCompletion.isSol] at hc
    | fail msg => simp [race_flag_history, List.replicate_succ, ih hrest]
    | joinErr msg => simp [race_flag_history, List.replicate_succ, ih hrest]

/-- Up to the first solution, the flag history is `false … false true`. -/
lemma race_flag_history_first_sol (pre : List WorkerCompletion)
    (s : IronShieldChallengeResponse) (post : List WorkerCompletion)
    (hpre : ∀ c ∈ pre, c.isSol = false) :
    race_flag_history (pre ++ .sol s :: post)
      = List.replicate pre.length false ++ [true] := by
  induction pre with
  | nil => rfl
  | cons c rest ih =>
    have hc := hpre c (List.mem_cons_self c rest)
    have hrest : ∀ c ∈ rest, c.isSol = false :=
      fun c hmem => hpre c (List.mem_cons_of_mem _ hmem)
    cases c with
    | sol s' => simp [WorkerCompletion.isSol] at hc
    | fail msg => simp [race_flag_history, List.replicate_succ, ih hrest]
    | joinErr msg => simp [race_flag_history, List.replicate_succ, ih hrest]

/-- Claim C7 (Found-flag invariant): the shared `solution_found` flag starts
`false`; when the coordinator accepts the first `Solution` completion the
history is `false, …, false, true` (one false→true transition at the
acceptance, then the loop breaks — never reset); when no completion is a
`Solution` the flag stays `false` throughout; the flag is `true` at most
once in the history; and a progress callback invoked with the flag set
reports nothing. -/
theorem found_flag_invariant (cs : List WorkerCompletion) :
    (∀ pre s post, cs = pre ++ .sol s :: post →
      (∀ c ∈ pre, c.isSol = false) →
      race_flag_history cs = List.replicate pre.length false ++ [true])
    ∧ ((∀ c ∈ cs, c.isSol = false) →
      race_flag_history cs = List.replicate cs.length false)
    ∧ (race_flag_history cs).count true ≤ 1
    ∧ (∀ c b e, (progress_callback true c b e).2 = none) := by
  refine ⟨?_, race_flag_history_all_false cs, ?_, fun _ _ _ => rfl⟩
  · intro pre s post hcs hpre
    rw [hcs]
    exact race_flag_history_first_sol pre s post hpre
  · induction cs with
    | nil => simp [race_flag_history]
    | cons c rest ih =>
      cases c with
      | sol s => simp [race_flag_history]
      | fail msg => simpa [race_flag_history] using ih
      | joinErr msg => simpa [race_flag_history] using ih

/-- Witness for `found_flag_invariant`: a failure followed by a solution
gives flag history `[false, true]`. -/
theorem found_flag_invariant_witness :
    ((WorkerCompletion.fail "x" :: [.sol ⟨5⟩]
        = [WorkerCompletion.fail "x"] ++ .sol ⟨5⟩ :: [])
      ∧ (∀ c ∈ [WorkerCompletion.fail "x"], c.isSol = false))
    ∧ race_flag_history (WorkerCompletion.fail "x" :: [.sol ⟨5⟩])
        = List.replicate 1 false ++ [true]
    ∧ (race_flag_history (WorkerCompletion.fail "x" :: [.sol ⟨5⟩])).count true ≤ 1
    ∧ (∀ c b e, (progress_callback true c b e).2 = none) := by
  have h := found_flag_invariant (.fail "x" :: [.sol ⟨5⟩])
  exact ⟨⟨rfl, by decide⟩,
    h.1 [.fail "x"] ⟨5⟩ [] rfl (by decide), h.2.2.1, h.2.2.2⟩

/-- The index `i = n % S` is the unique offset in `[0, S)` whose arithmetic
progression with stride `S` contains `n`. -/
lemma inProgression_iff_mod (i S n : Nat) (hS : 0 < S) (hi : i < S) :
    inProgression i S n ↔ n % S = i := by
  constructor
  · rintro ⟨k, rfl⟩
    simp [Nat.add_mul_mod_self_right, Nat.mod_eq_of_lt hi]
  · intro h
    exact ⟨n / S, by rw [← h]; exact (Nat.mod_add_div' n S).symm⟩

/-- Claim C2 (Round-robin partitioning): `solve_multithreaded` spawns the
worker of index `tid` with `offset = tid`, `stride = thread_count`, for
every `tid < thread_count`; and for stride `S ≥ 1` each `n` in the nonce
space `[0, M)` belongs to exactly one worker's progression
`{i, i+S, i+2S, …}` (`i < S`): the progressions are pairwise disjoint and
jointly cover `[0, M)`. -/
theorem round_robin_partition (S M : Nat) (hS : 1 ≤ S) :
    (∀ tid, tid < S → (spawned_workers S)[tid]? = some (tid, S))
    ∧ (∀ n, n < M → ∃! i, i < S ∧ inProgression i S n)
    ∧ (∀ i j, i < S → j < S → i ≠ j →
        ∀ n, inProgression i S n → ¬ inProgression j S n) := by
  refine ⟨?_, ?_, ?_⟩
  · intro tid htid
    simp [spawned_workers, List.getElem?_map, List.getElem?_range htid]
  · intro n _
    refine ⟨n % S, ⟨Nat.mod_lt n hS, ?_⟩, ?_⟩
    · exact (inProgression_iff_mod (n % S) S n hS (Nat.mod_lt n hS)).mpr rfl
    · rintro i ⟨hi, hin⟩
      exact ((inProgression_iff_mod i S n hS hi).mp hin).symm
  · intro i j hi hj hij n hin hjn
    exact hij (((inProgression_iff_mod i S n hS hi).mp hin).symm.trans
      ((inProgression_iff_mod j S n hS hj).mp hjn))

/-- Witness for `round_robin_partition` at `S = 3`, `M = 7`. -/
theorem round_robin_partition_witness :
    (1 ≤ 3)
    ∧ ((∀ tid, tid < 3 → (spawned_workers 3)[tid]? = some (tid, 3))
      ∧ (∀ n, n < 7 → ∃! i, i < 3 ∧ inProgression i 3 n)
      ∧ (∀ i j, i < 3 → j < 3 → i ≠ j →
          ∀ n, inProgression i 3 n → ¬ inProgression j 3 n)) :=
  ⟨by decide, round_robin_partition 3 7 (by decide)⟩

/-- A full run of the progress callback: the final counter adds the sum of
all batches, and the reports are exactly the prefix sums paired with the
hash rate computed from them. -/
lemma run_progress_callbacks_eq (elapsed_millis : Nat) (batches : List Nat) :
    ∀ cumulative : Nat,
      run_progress_callbacks cumulative elapsed_millis batches
        = (cumulative + batches.sum,
            (prefix_sums cumulative batches).map
              (fun t => (t, telemetry_hash_rate t elapsed_millis))) := by
  induction batches with
  | nil => intro c; simp [run_progress_callbacks, prefix_sums]
  | cons b bs ih =>
    intro c
    simp [run_progress_callbacks, progress_callback, prefix_sums, ih (c + b),
      Nat.add_assoc]

/-- The `k`-th prefix sum is the sum of the first `k + 1` batches. -/
lemma prefix_sums_get? (batches : List Nat) :
    ∀ acc k, k < batches.length →
      (prefix_sums acc batches)[k]? = some (acc + (batches.take (k + 1)).sum) := by
  induction batches with
  | nil => intro acc k hk; simp at hk
  | cons b bs ih =>
    intro acc k hk
    cases k with
    | zero => simp [prefix_sums]
    | succ k =>
      have hk' : k < bs.length := by simpa using hk
      simp [prefix_sums, ih (acc + b) k hk', Nat.add_assoc]

/-- Claim C8 (Batch accumulation): the progress callback receives batch sizes,
and over any run with the found-flag unset, the cumulative counter after the
first `k` invocations equals the sum of the first `k` batch sizes; each
report carries that cumulative sum as its attempts-so-far, and the reported
hash rate is computed from that cumulative sum. -/
theorem batch_accumulation (batches : List Nat) (elapsed_millis : Nat) :
    (∀ k, (run_progress_callbacks 0 elapsed_millis (batches.take k)).1
        = (batches.take k).sum)
    ∧ (run_progress_callbacks 0 elapsed_millis batches).2
        = (prefix_sums 0 batches).map
            (fun t => (t, telemetry_hash_rate t elapsed_millis))
    ∧ (∀ k, k < batches.length →
        (prefix_sums 0 batches)[k]? = some ((batches.take (k + 1)).sum)) := by
  refine ⟨?_, ?_, ?_⟩
  · intro k
    simp [run_progress_callbacks_eq elapsed_millis (batches.take k) 0]
  · simp [run_progress_callbacks_eq elapsed_millis batches 0]
  · intro k hk
    simpa using prefix_sums_get? batches 0 k hk

/-- Witness for `batch_accumulation` on three batches of 200,000 with
1,000 ms elapsed. -/
theorem batch_accumulation_witness :
    (∀ k, (run_progress_callbacks 0 1000 ([200000, 200000, 200000].take k)).1
        = ([200000, 200000, 200000].take k).sum)
    ∧ (run_progress_callbacks 0 1000 [200000, 200000, 200000]).2
        = (prefix_sums 0 [200000, 200000, 200000]).map
            (fun t => (t, telemetry_hash_rate t 1000))
    ∧ (∀ k, k < [200000, 200000, 200000].length →
        (prefix_sums 0 [200000, 200000, 200000])[k]?
          = some (([200000, 200000, 200000].take (k + 1)).sum)) :=
  batch_accumulation [200000, 200000, 200000] 1000

/-- Claim C3 (Expiry guard): `IronShieldClient::solve_challenge` fails with
`ChallengeExpired` whenever `current_time > challenge.expiration_time`, and
in that case no worker is spawned (no solver invocation occurs); when
`current_time ≤ expiration_time` no expiry error is ever returned, whatever
the solver does. -/
theorem expiry_guard (current_time : Int) (challenge : IronShieldChallenge)
    (solver_join : Except String (Except String IronShieldChallengeResponse))
    (verify : IronShieldChallengeResponse → Bool) :
    (current_time > challenge.expiration_time →
      (IronShieldClient.solve_challenge
          current_time challenge solver_join verify).result
        = .error .challengeExpired
      ∧ (IronShieldClient.solve_challenge
          current_time challenge solver_join verify).worker_spawned = false)
    ∧ (current_time ≤ challenge.expiration_time →
      (IronShieldClient.solve_challenge
          current_time challenge solver_join verify).result
        ≠ .error .challengeExpired) := by
  constructor
  · intro h
    simp [IronShieldClient.solve_challenge, h]
  · intro h
    have h' : ¬ current_time > challenge.expiration_time := not_lt.mpr h
    cases solver_join with
    | error e => simp [IronShieldClient.solve_challenge, h']
    | ok inner =>
      cases inner with
      | error e => simp [IronShieldClient.solve_challenge, h']
      | ok response =>
        by_cases hv : verify response
        · simp [IronShieldClient.solve_challenge, h', hv]
        · simp [IronShieldClient.solve_challenge, h', hv]

/-- Witness for `expiry_guard`: an expired challenge
(`current_time = 11 > expiration_time = 10`) yields `ChallengeExpired` with
no worker spawned. -/
theorem expiry_guard_witness :
    (((11 : Int) > (10 : Int) →
      (IronShieldClient.solve_challenge 11 ⟨"w", 100, 10⟩
          (.ok (.ok ⟨3⟩)) (fun _ => true)).result = .error .challengeExpired
      ∧ (IronShieldClient.solve_challenge 11 ⟨"w", 100, 10⟩
          (.ok (.ok ⟨3⟩)) (fun _ => true)).worker_spawned = false)
    ∧ ((11 : Int) ≤ (10 : Int) →
      (IronShieldClient.solve_challenge 11 ⟨"w", 100, 10⟩
          (.ok (.ok ⟨3⟩)) (fun _ => true)).result ≠ .error .challengeExpired))
    ∧ (11 : Int) > (10 : Int) :=
  ⟨expiry_guard 11 ⟨"w", 100, 10⟩ (.ok (.ok ⟨3⟩)) (fun _ => true), by decide⟩

/-- Claim C4 (Verification gate): when the race produces a winning solution,
`IronShieldClient::solve_challenge` calls the verification predicate on it
exactly once (no retry) before returning; if the predicate rejects it the
call returns the fatal `VerificationFailed` error, never the solution; any
successful return carries a solution the predicate accepted. -/
theorem verification_gate (current_time : Int)
    (challenge : IronShieldChallenge)
    (response : IronShieldChallengeResponse)
    (verify : IronShieldChallengeResponse → Bool)
    (hexp : current_time ≤ challenge.expiration_time) :
    (IronShieldClient.solve_challenge current_time challenge
        (.ok (.ok response)) verify).verify_calls = 1
    ∧ (verify response = false →
      (IronShieldClient.solve_challenge current_time challenge
          (.ok (.ok response)) verify).result = .error .verificationFailed)
    ∧ (verify response = true →
      (IronShieldClient.solve_challenge current_time challenge
          (.ok (.ok response)) verify).result = .ok response)
    ∧ (∀ r, (IronShieldClient.solve_challenge current_time challenge
          (.ok (.ok response)) verify).result = .ok r → verify r = true) := by
  have h' : ¬ current_time > challenge.expiration_time := not_lt.mpr hexp
  by_cases hv : verify response
  · refine ⟨by simp [IronShieldClient.solve_challenge, h', hv], ?_, ?_, ?_⟩
    · intro hfalse; rw [hv] at hfalse; exact absurd hfalse (by decide)
    · intro _; simp [IronShieldClient.solve_challenge, h', hv]
    · intro r hr
      simp [IronShieldClient.solve_challenge, h', hv] at hr
      rw [← hr]; exact hv
  · refine ⟨by simp [IronShieldClient.solve_challenge, h', hv], ?_, ?_, ?_⟩
    · intro _; simp [IronShieldClient.solve_challenge, h', hv]
    · intro htrue; exact absurd htrue hv
    · intro r hr
      simp [IronShieldClient.solve_challenge, h', hv] at hr

/-- Witness for `verification_gate`: a stub verifier rejecting the stub
solution (nonce 3) yields `VerificationFailed`, with exactly one
verification call. -/
theorem verification_gate_witness :
    ((0 : Int) ≤ (10 : Int))
    ∧ ((IronShieldClient.solve_challenge 0 ⟨"w", 100, 10⟩
        (.ok (.ok ⟨3⟩)) (fun _ => false)).verify_calls = 1
      ∧ ((fun (_ : IronShieldChallengeResponse) => false) ⟨3⟩ = false →
        (IronShieldClient.solve_challenge 0 ⟨"w", 100, 10⟩
            (.ok (.ok ⟨3⟩)) (fun _ => false)).result
          = .error .verificationFailed)
      ∧ ((fun (_ : IronShieldChallengeResponse) => false) ⟨3⟩ = true →
        (IronShieldClient.solve_challenge 0 ⟨"w", 100, 10⟩
            (.ok (.ok ⟨3⟩)) (fun _ => false)).result = .ok ⟨3⟩)
      ∧ (∀ r, (IronShieldClient.solve_challenge 0 ⟨"w", 100, 10⟩
            (.ok (.ok ⟨3⟩)) (fun _ => false)).result = .ok r →
          (fun (_ : IronShieldChallengeResponse) => false) r = true)) :=
  ⟨by decide, verification_gate 0 ⟨"w", 100, 10⟩ ⟨3⟩ (fun _ => false) (by decide)⟩

/-- For in-range operands with `b ≤ a`, `u64` wrapping subtraction is plain
truncated subtraction. -/
lemma u64_sub_of_le (a b : Nat) (hba : b ≤ a) (ha : a < 2 ^ 64) :
    u64_sub a b = a - b := by
  have hb : b < 2 ^ 64 := lt_of_le_of_lt hba ha
  unfold u64_sub
  rw [Nat.mod_eq_of_lt hb]
  have h1 : a + (2 ^ 64 - b) = (a - b) + 2 ^ 64 := by omega
  rw [h1, Nat.add_mod_right]
  exact Nat.mod_eq_of_lt (lt_of_le_of_lt (Nat.sub_le a b) ha)

/-- Claim C9 (Progress-log throttling): with per-worker totals that only grow,
`VerboseProgressTracker::on_progress` emits a line exactly when
`total_attempts` minus the attempts recorded at that worker's last emitted
line (0 if none) reaches the 500,000 threshold; on emission it records
`total_attempts` for that worker, on suppression the map is unchanged; and
after an emission, a further call for the same worker whose total is still
within the threshold window emits nothing. -/
theorem progress_log_throttling (last_logged : Nat → Option Nat)
    (thread_id total_attempts total_attempts2 : Nat)
    (hmono : (last_logged thread_id).getD 0 ≤ total_attempts)
    (hbound : total_attempts < 2 ^ 64)
    (h2a : total_attempts ≤ total_attempts2)
    (h2b : total_attempts2 < total_attempts + 500000)
    (h2bound : total_attempts2 < 2 ^ 64) :
    ((VerboseProgressTracker.on_progress last_logged thread_id
        total_attempts).1 = true
      ↔ 500000 ≤ total_attempts - (last_logged thread_id).getD 0)
    ∧ ((VerboseProgressTracker.on_progress last_logged thread_id
        total_attempts).1 = true →
      (VerboseProgressTracker.on_progress last_logged thread_id
          total_attempts).2 thread_id = some total_attempts)
    ∧ ((VerboseProgressTracker.on_progress last_logged thread_id
        total_attempts).1 = false →
      (VerboseProgressTracker.on_progress last_logged thread_id
          total_attempts).2 = last_logged)
    ∧ ((VerboseProgressTracker.on_progress last_logged thread_id
        total_attempts).1 = true →
      (VerboseProgressTracker.on_progress
          ((VerboseProgressTracker.on_progress last_logged thread_id
            total_attempts).2) thread_id total_attempts2).1 = false) := by
  have hsub := u64_sub_of_le total_attempts
    ((last_logged thread_id).getD 0) hmono hbound
  by_cases hcond :
      500000 ≤ total_attempts - (last_logged thread_id).getD 0
  · have hfst : (VerboseProgressTracker.on_progress last_logged thread_id
        total_attempts).1 = true := by
      simp [VerboseProgressTracker.on_progress, hsub, hcond]
    have hsnd : (VerboseProgressTracker.on_progress last_logged thread_id
        total_attempts).2 thread_id = some total_attempts := by
      simp [VerboseProgressTracker.on_progress, hsub, hcond]
    refine ⟨by simp [hfst, hcond], fun _ => hsnd, ?_, ?_⟩
    · intro hfalse; rw [hfst] at hfalse; exact absurd hfalse (by decide)
    · intro _
      have hsub2 := u64_sub_of_le total_attempts2 total_attempts h2a h2bound
      have hwin : ¬ 500000 ≤ total_attempts2 - total_attempts := by omega
      generalize hm : (VerboseProgressTracker.on_progress last_logged thread_id
          total_attempts).2 = m
      rw [hm] at hsnd
      simp [VerboseProgressTracker.on_progress, hsnd, hsub2, hwin]
  · have hfst : (VerboseProgressTracker.on_progress last_logged thread_id
        total_attempts).1 = false := by
      simp [VerboseProgressTracker.on_progress, hsub, hcond]
    refine ⟨by simp [hfst, hcond], ?_, ?_, ?_⟩
    · intro htrue; rw [hfst] at htrue; exact absurd htrue (by decide)
    · intro _; simp [VerboseProgressTracker.on_progress, hsub, hcond]
    · intro htrue; rw [hfst] at htrue; exact absurd htrue (by decide)

/-- Witness for `progress_log_throttling`: from an empty map, a call at
600,000 attempts emits (600,000 − 0 ≥ 500,000) and records 600,000; the
next call at 900,000 (< 600,000 + 500,000) is suppressed. -/
theorem progress_log_throttling_witness :
    ((((fun _ => none : Nat → Option Nat) 0).getD 0 ≤ 600000)
      ∧ 600000 < 2 ^ 64 ∧ 600000 ≤ 900000
      ∧ 900000 < 600000 + 500000 ∧ 900000 < 2 ^ 64)
    ∧ (((VerboseProgressTracker.on_progress (fun _ => none) 0 600000).1 = true
        ↔ 500000 ≤ 600000 - (((fun _ => none : Nat → Option Nat) 0)).getD 0)
      ∧ ((VerboseProgressTracker.on_progress (fun _ => none) 0 600000).1 = true →
        (VerboseProgressTracker.on_progress (fun _ => none) 0 600000).2 0
          = some 600000)
      ∧ ((VerboseProgressTracker.on_progress (fun _ => none) 0 600000).1 = false →
        (VerboseProgressTracker.on_progress (fun _ => none) 0 600000).2
          = (fun _ => none))
      ∧ ((VerboseProgressTracker.on_progress (fun _ => none) 0 600000).1 = true →
        (VerboseProgressTracker.on_progress
            ((VerboseProgressTracker.on_progress (fun _ => none) 0 600000).2)
            0 900000).1 = false)) := by
  refine ⟨⟨Nat.zero_le _, ?_, by decide, by decide, ?_⟩, ?_⟩
  · exact lt_of_lt_of_le (by decide : (600000 : Nat) < 2 ^ 24)
      (Nat.pow_le_pow_right (by decide) (by decide))
  · exact lt_of_lt_of_le (by decide : (900000 : Nat) < 2 ^ 24)
      (Nat.pow_le_pow_right (by decide) (by decide))
  · exact progress_log_throttling (fun _ => none) 0 600000 900000
      (Nat.zero_le _)
      (lt_of_lt_of_le (by decide : (600000 : Nat) < 2 ^ 24)
        (Nat.pow_le_pow_right (by decide) (by decide)))
      (by decide) (by decide)
      (lt_of_lt_of_le (by decide : (900000 : Nat) < 2 ^ 24)
        (Nat.pow_le_pow_right (by decide) (by decide)))

/-- Claim C10 (Implicit single-worker fallback): with `use_multithreaded =
true` but a configured override of 1 thread, `solve_challenge` takes the
single-threaded path — one blocking worker over the full unpartitioned
search space, no race coordinator; in general the multithreaded race runs
iff `use_multithreaded` is true and the resolved `thread_count` exceeds 1. -/
theorem single_worker_fallback (config : ClientConfig) (available_cores : Nat)
    (hover : config.num_threads = some 1) :
    (SolveConfig.new config true available_cores).thread_count = 1
    ∧ solve_challenge_path (SolveConfig.new config true available_cores)
        = .single
    ∧ solve_challenge_workers (SolveConfig.new config true available_cores)
        = [(0, 1)]
    ∧ (∀ sc : SolveConfig, sc.thread_count = 1 →
        solve_challenge_path sc = .single)
    ∧ (∀ sc : SolveConfig, solve_challenge_path sc = .multi ↔
        (sc.use_multithreaded = true ∧ 1 < sc.thread_count)) := by
  have htc : (SolveConfig.new config true available_cores).thread_count = 1 := by
    simp [SolveConfig.new, hover]
  have hpath : ∀ sc : SolveConfig, sc.thread_count = 1 →
      solve_challenge_path sc = .single := by
    intro sc h
    simp [solve_challenge_path, h]
  refine ⟨htc, hpath _ htc, ?_, hpath, ?_⟩
  · simp [solve_challenge_workers, hpath _ htc]
  · intro sc
    constructor
    · intro h
      by_contra hcontra
      rw [not_and_or] at hcontra
      rcases hcontra with hmt | htc'
      · have : sc.use_multithreaded = false := by
          cases hmt' : sc.use_multithreaded
          · rfl
          · exact absurd hmt' hmt
        simp [solve_challenge_path, this] at h
      · have : ¬ sc.thread_count > 1 := htc'
        simp [solve_challenge_path, this] at h
    · rintro ⟨hmt, htc'⟩
      simp [solve_challenge_path, hmt, htc']

/-- Witness for `single_worker_fallback` at a configuration with
`num_threads = Some(1)` and 8 available cores. -/
theorem single_worker_fallback_witness :
    ((⟨"e", "a", 30, false, some 1⟩ : ClientConfig).num_threads = some 1)
    ∧ ((SolveConfig.new ⟨"e", "a", 30, false, some 1⟩ true 8).thread_count = 1
      ∧ solve_challenge_path (SolveConfig.new ⟨"e", "a", 30, false, some 1⟩ true 8)
          = .single
      ∧ solve_challenge_workers
          (SolveConfig.new ⟨"e", "a", 30, false, some 1⟩ true 8) = [(0, 1)]
      ∧ (∀ sc : SolveConfig, sc.thread_count = 1 →
          solve_challenge_path sc = .single)
      ∧ (∀ sc : SolveConfig, solve_challenge_path sc = .multi ↔
          (sc.use_multithreaded = true ∧ 1 < sc.thread_count))) :=
  ⟨rfl, single_worker_fallback ⟨"e", "a", 30, false, some 1⟩ 8 rfl⟩

end IronShield
